import Mathlib

/-!
# Verification of docklog.py

A shallow embedding of the docker log multiplexer in src/docklog.py, together
with theorems settling the specification claims about it.

Conventions of the embedding:
* Python strings are Lean `String`s; all character-level operations are defined
  on `String.data` (`List Char`) so that every definition evaluates by kernel
  reduction.  Python string indices/slices act on code points, as does
  `List.take` on `String.data`.
* Python `int` arithmetic on possibly-negative quantities uses `Int`
  (`' ' * n` is empty for `n ≤ 0`, modelled by `Int.toNat`).
* A raw record from `container.logs(stream=True, ...)` is either a bytes
  object (whose `.decode()` succeeds) or an already-decoded `str` chunk
  (whose `.decode()` raises `AttributeError`); modelled by `Rec`.
* A Python expression that can raise an uncaught exception (`IndexError` from
  `line.split()[0]`) is modelled with `Option`, `none` being the uncaught
  exception.
* `random.randrange(lo, lo+5)` is modelled by `lo + r % 5` where `r` is the
  next value of an arbitrary oracle stream `rng : Nat → Nat`; every value of
  the real range is reachable and no other value is.
-/

namespace Docklog

/-! ## Python string primitives -/

/-- Characters treated as whitespace by Python str.split / str.strip. -/
def pyIsSpace (c : Char) : Bool :=
  c == ' ' || c == '\t' || c == '\n' || c == '\r' || c == '\x0b' || c == '\x0c'

/-- Python str.strip(): remove leading and trailing whitespace. -/
def pyStrip (s : String) : String :=
  ⟨((s.data.dropWhile pyIsSpace).reverse.dropWhile pyIsSpace).reverse⟩

/-- Word decomposition underlying Python str.split() with no separator:
maximal runs of non-whitespace characters, with whitespace runs discarded. -/
def pyWords : List Char → List (List Char)
  | [] => []
  | [c] => if pyIsSpace c then [] else [[c]]
  | c :: d :: cs =>
    if pyIsSpace c then pyWords (d :: cs)
    else if pyIsSpace d then [c] :: pyWords (d :: cs)
    else
      match pyWords (d :: cs) with
      | [] => [[c]]
      | w :: ws => (c :: w) :: ws

/-- Python str.split() with no separator argument. -/
def pySplit (s : String) : List String :=
  (pyWords s.data).map String.mk

/-- Python " ".join(xs). -/
def pyJoin (xs : List String) : String :=
  String.intercalate " " xs

/-- Python membership test, as in "'\n' in line" for a str chunk. -/
def pyContains (s : String) (c : Char) : Bool :=
  s.data.contains c

/-- Python s[:n] on a str (a code-point slice). -/
def pyTake (s : String) (n : Nat) : String :=
  ⟨s.data.take n⟩

/-- Python ' ' * n, which is empty for n <= 0. -/
def pySpaces (n : Int) : String :=
  ⟨List.replicate n.toNat ' '⟩

/-- Split on the newline character, keeping empty pieces: Python s.split('\n'). -/
def pySplitNl (s : String) : List String :=
  (splitNlData s.data).map String.mk
where
  splitNlData : List Char → List (List Char)
    | [] => [[]]
    | c :: cs =>
      if c = '\n' then [] :: splitNlData cs
      else
        match splitNlData cs with
        | [] => [[c]]
        | w :: ws => (c :: w) :: ws

/-- Lexicographic comparison of code-point sequences: Python str <=. -/
def lexLe : List Char → List Char → Bool
  | [], _ => true
  | _ :: _, [] => false
  | a :: as, b :: bs =>
    if a.toNat < b.toNat then true
    else if b.toNat < a.toNat then false
    else lexLe as bs

/-- Python string comparison a <= b (lexicographic on code points). -/
def pyLe (a b : String) : Bool :=
  lexLe a.data b.data

/-! ## Raw records (docklog.py lines 29-36)

Some containers yield byte records (which `.decode()` turns into text) and
some yield already-decoded str chunks, for which `.decode()` raises
`AttributeError` (docker-py issue 1729, quoted in the source comment). -/

/-- One record delivered by container.logs(stream=True, ...). -/
inductive Rec where
  | bytes (s : String)
  | str (s : String)
deriving DecidableEq

/-! ## Colors and row formatting (docklog.py lines 37-46, 57-64, 114-116, 163) -/

/-- colorama Style.BRIGHT. -/
def styleBright : String := "\x1b[1m"

/-- colorama Style.RESET_ALL. -/
def styleReset : String := "\x1b[0m"

/-- Line 163: color = Style.BRIGHT + '\033[' + str(colorcode) + 'm'. -/
def colorStr (code : Nat) : String :=
  styleBright ++ "\x1b[" ++ Nat.repr code ++ "m"

/-- The ten color codes the allocation loop can produce
(randrange(31,36) and randrange(91,96), line 156 and 158). -/
def poolCodes : List Nat := [31, 32, 33, 34, 35, 91, 92, 93, 94, 95]

/-- Lines 39 and 82: tabwidth = (bignamewidth - len(container.name)) + 8. -/
def tabwidthTs (big : Nat) (name : String) : Int :=
  ((big : Int) - name.length) + 8

/-- Lines 59 and 93: tabwidth = (bignamewidth - len(container.name)) + 14. -/
def tabwidthNoTs (big : Nat) (name : String) : Int :=
  ((big : Int) - name.length) + 14

/-- The printed row with timestamps (lines 46, 54, 87):
color + name + Style.RESET_ALL + ' ' * tabwidth + time + '  |  ' + logline. -/
def rowTs (big : Nat) (name : String) (code : Nat) (time logline : String) : String :=
  colorStr code ++ name ++ styleReset ++ pySpaces (tabwidthTs big name) ++ time ++ "  |  " ++ logline

/-- The printed row without timestamps (lines 64, 71, 95):
color + name + Style.RESET_ALL + ' ' * tabwidth + '|  ' + logline. -/
def rowNoTs (big : Nat) (name : String) (code : Nat) (logline : String) : String :=
  colorStr code ++ name ++ styleReset ++ pySpaces (tabwidthNoTs big name) ++ "|  " ++ logline

/-! ## Line reconstruction in stream_log (docklog.py lines 37-73)

The timestamp/body split of lines 44-45 and 51-52: given a (stripped) logical
line, the timestamp is line.split()[0][:22] + 'Z' and the body is
' '.join(line.split()[1:]).  An empty token list makes line.split()[0] raise
IndexError, which stream_log does not catch; this is the `none` case. -/

/-- Timestamp/body split of a logical line, lines 44-45 / 51-52. -/
def tsOfLine (line : String) : Option (String × String) :=
  match pySplit line with
  | [] => none
  | t :: rest => some (pyTake t 22 ++ "Z", pyJoin rest)

/-- One iteration of the stream_log loop with timestamps (lines 41-54).
State is the accumulation buffer strline; the result is the new buffer and
the (timestamp, body) pairs printed for this record, or `none` for an
uncaught IndexError. -/
def streamStepTs (strline : String) (r : Rec) : Option (String × List (String × String)) :=
  match r with
  | .bytes s =>
    match tsOfLine (pyStrip s) with
    | none => none
    | some tl => some (strline, [tl])
  | .str s =>
    let strline1 := if !(pyContains s '\n') && !(pyContains s '\r') then strline ++ s else strline
    if pyContains s '\n' then
      match tsOfLine (pyStrip strline1) with
      | none => none
      | some tl => some ("", [tl])
    else
      some (strline1, [])

/-- The stream_log loop with timestamps folded over a record list, collecting
the (timestamp, body) pairs of all printed lines in order. -/
def reconTs : List Rec → String → Option (String × List (String × String))
  | [], strline => some (strline, [])
  | r :: rs, strline =>
    match streamStepTs strline r with
    | none => none
    | some (st1, out1) =>
      match reconTs rs st1 with
      | none => none
      | some (st2, out2) => some (st2, out1 ++ out2)

/-- One iteration of the stream_log loop without timestamps (lines 61-71).
The result is the new buffer and the bodies printed for this record; no
exception is possible on this path. -/
def streamStepNoTs (strline : String) (r : Rec) : String × List String :=
  match r with
  | .bytes s => (strline, [pyStrip s])
  | .str s =>
    let strline1 := if !(pyContains s '\n') && !(pyContains s '\r') then strline ++ s else strline
    if pyContains s '\n' then ("", [pyStrip strline1])
    else (strline1, [])

/-! ## print_log (docklog.py lines 76-98) -/

/-- print_log with timestamps (lines 80-88): for each line of the decoded
snapshot except the last empty piece, strip it, split off the timestamp as
logline.split()[0][:24] + 'Z', and format a row.  line.split()[0] raises
IndexError (uncaught) on an empty logical line: the `none` case. -/
def print_logTs (big : Nat) (name : String) (code : Nat) (raw : String) :
    Option (List String) :=
  ((pySplitNl raw).dropLast).mapM fun line =>
    let logline := pyStrip line
    match pySplit logline with
    | [] => none
    | t :: rest => some (rowTs big name code (pyTake t 24 ++ "Z") (pyJoin rest))

/-- print_log without timestamps (lines 91-96). -/
def print_logNoTs (big : Nat) (name : String) (code : Nat) (raw : String) :
    List String :=
  ((pySplitNl raw).dropLast).map fun line => rowNoTs big name code (pyStrip line)

/-! ## Static-mode final print (docklog.py lines 183-189)

With timestamps the collected lines are printed as
sorted(all_lines, key=lambda line: line.split()[1]): a stable ascending sort
on the second whitespace-separated token, raising IndexError when a line has
fewer than two tokens.  Python's sorted is a stable sort and a stable
ascending sort by a key is unique, so it is modelled by insertion sort with
the key comparison. -/

/-- The sort key of line 185: line.split()[1], IndexError as `none`. -/
def staticSortKey (line : String) : Option String :=
  (pySplit line).get? 1

/-- The sort key with a default, used only when every key exists. -/
def keyD (line : String) : String :=
  (pySplit line).getD 1 ""

/-- Comparison used by sorted(all_lines, key=lambda line: line.split()[1]). -/
def sortLe (a b : String) : Prop :=
  pyLe (keyD a) (keyD b) = true

instance instDecSortLe : DecidableRel sortLe := fun a b => by
  unfold sortLe; infer_instance

/-- The static-mode print order (lines 183-189): with timestamps, the stable
ascending sort by the extracted key (none if any line lacks a second token,
modelling the uncaught IndexError); without, collection order. -/
def staticPrint (timestamps : Bool) (all_lines : List String) : Option (List String) :=
  if timestamps then
    if all_lines.all fun l => (staticSortKey l).isSome then
      some (List.insertionSort sortLe all_lines)
    else none
  else some all_lines

/-! ## Color allocation (docklog.py lines 152-163)

The while-True loop: draw from randrange(91,96) once five tokens have been
issued and from randrange(31,36) before that, retrying while the draw is
already in usedcolors.  The unbounded loop is modelled with fuel; `none`
means the loop did not exit within the fuel, i.e. potential divergence. -/

/-- One draw of the loop body, lines 155-158; r is the oracle value. -/
def drawColor (used : List Nat) (r : Nat) : Nat :=
  if 5 ≤ used.length then 91 + r % 5 else 31 + r % 5

/-- The rejection-sampling loop for one container (lines 154-162), returning
the accepted code and the next oracle index. -/
def allocLoop : Nat → (Nat → Nat) → Nat → List Nat → Option (Nat × Nat)
  | 0, _, _, _ => none
  | fuel + 1, rng, i, used =>
    if drawColor used (rng i) ∈ used then allocLoop fuel rng (i + 1) used
    else some (drawColor used (rng i), i + 1)

/-- Allocation for n containers in order, appending each accepted code to
usedcolors (line 161); returns the final usedcolors list. -/
def allocAll (rng : Nat → Nat) (fuel : Nat) : Nat → Nat → List Nat → Option (List Nat)
  | 0, _, used => some used
  | n + 1, i, used =>
    match allocLoop fuel rng i used with
    | none => none
    | some (c, i1) => allocAll rng fuel n i1 (used ++ [c])

/-- The normal-intensity range of line 158, randrange(31,36). -/
def normalPool : Finset Nat := Finset.Ico 31 36

/-- The bright-intensity range of line 156, randrange(91,96). -/
def brightPool : Finset Nat := Finset.Ico 91 96

/-- The range the k-th allocation draws from: usedcolors has k elements then. -/
def activePool (k : Nat) : Finset Nat :=
  if 5 ≤ k then brightPool else normalPool

/-- Reachability invariant of usedcolors: the k-th issued token came from the
range that was active at its draw. -/
def PoolInvariant (used : List Nat) : Prop :=
  ∀ k, k < used.length → used.getD k 0 ∈ activePool k

/-! ## The program top level (docklog.py lines 100-209)

The docker daemon and container lookup are the external LogSource; they are
modelled by an environment.  resolve gives the display name of a container
identifier (none when `client.containers.get` raises), daemonOk tells
whether `docker.from_env` succeeds, and logsStatic gives the decoded
snapshot text used by print_log.  Tail counts and the live streams are
irrelevant to the top-level claims and are absorbed into the environment. -/

/-- The external container runtime as seen by docklog.py. -/
structure Env where
  daemonOk : Bool
  resolve : String → Option String
  logsStatic : String → String

/-- Observable effects of a run: client connections opened and closed,
stream_log child processes started, stdout lines, error-channel lines. -/
structure Trace where
  opened : Nat := 0
  closed : Nat := 0
  streams : Nat := 0
  outLines : List String := []
  errs : List String := []
deriving DecidableEq

/-- Final states of the modelled main program. -/
inductive MainOut where
  /-- sys.exit(code) was reached. -/
  | exited (code : Nat) (t : Trace)
  /-- An uncaught exception (IndexError, or an unguarded lookup failure in
  the second loop) terminated the process. -/
  | crashed (t : Trace)
  /-- The color-allocation loop did not exit within the fuel. -/
  | spun (t : Trace)
  /-- Streaming mode reached the keep-alive wait loop with workers running. -/
  | streamingWait (t : Trace)
deriving DecidableEq

/-- Line 23: 'too many {} arguments: {}. Max 8'.format('container', n). -/
def tooManyMsg (n : Nat) : String :=
  "too many container arguments: " ++ Nat.repr n ++ ". Max 8"

/-- The maximum_length(8) argparse action, lines 19-26: reject more than
nmax positional container arguments. -/
def maximum_length (nmax : Nat) (values : List String) : Except String (List String) :=
  if values.length ≤ nmax then .ok values
  else .error (tooManyMsg values.length)

/-- The usage line printed by parser.print_usage() (argparse output). -/
def usageMsg : String :=
  "usage: docklog.py [-h] [-t] [-n TAIL] [-s] CONTAINER [CONTAINER ...]"

/-- The message argparse emits for a missing required positional. -/
def missingArgMsg : String :=
  "docklog.py: error: the following arguments are required: CONTAINER"

/-- Line 135: the daemon-connection error text. -/
def errConnect : String :=
  "\n" ++ styleBright ++ "\x1b[31mError" ++ styleReset ++ ": Could not connect to docker daemon"

/-- Line 141: the lookup error text.  The doubled quotes in the source are
adjacent string literals, so the container name is not interpolated; the
message is the fixed text below. -/
def errNotFound : String :=
  "\n" ++ styleBright ++ "\x1b[31mError" ++ styleReset ++ ": Could not find container  + container + "

/-- The resolution loop, lines 131-148: per identifier, connect a client
(exit 1 on daemon failure), look the container up (close the client and
exit 1 on failure), fold its name length into bignamewidth, close the
client.  Carries (bignamewidth, opened, closed); an error carries the
message and the final open/close counts. -/
def resolveLoop (env : Env) :
    List String → Nat → Nat → Nat → Except (String × Nat × Nat) (Nat × Nat × Nat)
  | [], big, op, cl => .ok (big, op, cl)
  | _cid :: rest, big, op, cl =>
    if env.daemonOk then
      match env.resolve _cid with
      | none => .error (errNotFound, op + 1, cl + 1)
      | some nm =>
        resolveLoop env rest (if nm.length > big then nm.length else big) (op + 1) (cl + 1)
  else .error (errConnect, op, cl)

/-- The second per-container loop, lines 152-180: allocate a color, connect
a client (kept open), look the container up again (unguarded: a failure is
an uncaught exception), then either collect print_log output (static) or
start a stream_log child process.  Finishes with lines 183-209. -/
def runContainers (env : Env) (timestamps static : Bool) (big : Nat)
    (rng : Nat → Nat) (fuel : Nat) :
    List String → Nat → List Nat → List String → Trace → MainOut
  | [], _, _, all, t =>
    if static then
      match staticPrint timestamps all with
      | none => .crashed t
      | some ls =>
        .exited 0 { t with outLines := t.outLines ++ ls ++ [""], closed := t.closed + 1 }
    else .streamingWait t
  | _cid :: rest, i, used, all, t =>
    match allocLoop fuel rng i used with
    | none => .spun t
    | some (c, i1) =>
      if env.daemonOk then
        let t1 := { t with opened := t.opened + 1 }
        match env.resolve _cid with
        | none => .crashed t1
        | some nm =>
          if static then
            match
              (if timestamps then print_logTs big nm c (env.logsStatic nm)
               else some (print_logNoTs big nm c (env.logsStatic nm))) with
            | none => .crashed t1
            | some ls =>
              runContainers env timestamps static big rng fuel rest i1 (used ++ [c]) (all ++ ls) t1
          else
            runContainers env timestamps static big rng fuel rest i1 (used ++ [c]) all
              { t1 with streams := t1.streams + 1 }
      else .crashed t

/-- The whole main program, lines 100-209: argument validation (argparse with
the maximum_length(8) action; parse errors print the usage line plus an
error line and exit, lines 107-112), the resolution loop, then the
per-container loop. -/
def dockMain (env : Env) (ids : List String) (timestamps static : Bool)
    (rng : Nat → Nat) (fuel : Nat) : MainOut :=
  if ids.isEmpty then
    .exited 2 { errs := [usageMsg, missingArgMsg] }
  else
    match maximum_length 8 ids with
    | .error msg =>
      .exited 1 { errs := [usageMsg, "docklog.py: error: " ++ msg] }
    | .ok _ =>
      match resolveLoop env ids 0 0 0 with
      | .error (msg, op, cl) =>
        .exited 1 { opened := op, closed := cl, errs := [msg] }
      | .ok (big, op, cl) =>
        runContainers env timestamps static big rng fuel ids 0 [] []
          { opened := op, closed := cl }

/-! ## Observations on formatted rows

Helpers used to state the layout claims: padding width after the painted
container name, the column of the '|' separator, and presence of the five
character separator.  The painted name occupies 9 (color escape, two-digit
code) + name length + 4 (reset escape) characters. -/

/-- All characters of s are non-whitespace. -/
def noWs (s : String) : Bool :=
  s.data.all fun c => !(pyIsSpace c)

/-- No character of s is the bar character. -/
def noBar (s : String) : Bool :=
  s.data.all fun c => c != '|'

/-- Number of consecutive spaces following the painted name in a row. -/
def padAfterName (nameLen : Nat) (row : String) : Nat :=
  ((row.data.drop (13 + nameLen)).takeWhile fun c => c == ' ').length

/-- Character column (0-based) of the first bar character of a row. -/
def barCol (row : String) : Nat :=
  (row.data.takeWhile fun c => c != '|').length

/-- The row contains the five-character separator "  |  ". -/
def hasSep (row : String) : Prop :=
  ∃ u v : List Char, row.data = u ++ "  |  ".data ++ v

/-- The data of one collected static-mode line with timestamps: container
display name, color code, extracted timestamp, body. -/
structure TsEntry where
  name : String
  code : Nat
  time : String
  body : String

/-- The formatted row of an entry. -/
def mkRow (big : Nat) (e : TsEntry) : String :=
  rowTs big e.name e.code e.time e.body

/-- Well-formedness of an entry as produced by a real run: the color code
comes from the allocator pools, the resolved container name is nonempty
without whitespace and no longer than bignamewidth, and the extracted
timestamp token is nonempty without whitespace. -/
def goodEntry (big : Nat) (e : TsEntry) : Bool :=
  decide (e.code ∈ poolCodes) && noWs e.name && !e.name.data.isEmpty &&
    decide (e.name.length ≤ big) && noWs e.time && !e.time.data.isEmpty

/-! ## Theorems -/

/-- Claim C1 (code bug).  The spec demands that byte-wise fragmented delivery
reconstruct the same logical lines as whole-line delivery, with the example
fragments "2024-01-01T00:00:00.000000000Z hel", "lo\n" yielding the line
(2024-01-01T00:00:00.000000000Z, hello).  The code does neither: the chunk
carrying the newline is never appended to the accumulation buffer (lines
48-50 make the append and the flush mutually exclusive), so the fragments
yield body "hel" while whole-line delivery yields body "hello"; and both
paths truncate the timestamp to 22 characters plus 'Z'. -/
theorem c1_fragment_vs_whole :
    reconTs [Rec.str "2024-01-01T00:00:00.000000000Z hel", Rec.str "lo\n"] "" =
      some ("", [("2024-01-01T00:00:00.00Z", "hel")]) ∧
    reconTs [Rec.bytes "2024-01-01T00:00:00.000000000Z hello\n"] "" =
      some ("", [("2024-01-01T00:00:00.00Z", "hello")]) ∧
    ("hel" : String) ≠ "hello" ∧
    ("2024-01-01T00:00:00.00Z" : String) ≠ "2024-01-01T00:00:00.000000000Z" :=
  ⟨by decide, by decide, by decide, by decide⟩

/-- Claim C2 (code bug).  The spec demands that an empty logical line not
raise, in streaming and static mode with timestamps.  In both,
line.split()[0] raises an uncaught IndexError on the empty line: a streamed
record b"\n" and a static snapshot "\n" both crash (modelled by none). -/
theorem c2_empty_line_raises :
    streamStepTs "" (Rec.bytes "\n") = none ∧
    print_logTs 0 "db" 31 "\n" = none :=
  ⟨by decide, by decide⟩

/-- Claim C10 (confirmed).  A str fragment containing a carriage return but
no newline is neither appended to the accumulation buffer nor does it flush
the buffer, in both stream_log branches: its content is silently discarded. -/
theorem c10_cr_fragment_discarded (strline s : String)
    (hr : pyContains s '\r' = true) (hn : pyContains s '\n' = false) :
    streamStepTs strline (Rec.str s) = some (strline, []) ∧
    streamStepNoTs strline (Rec.str s) = (strline, []) := by
  constructor <;> simp [streamStepTs, streamStepNoTs, hr, hn]

/-- Witness for c10_cr_fragment_discarded at strline = "x", s = "ab\r". -/
theorem c10_cr_fragment_discarded_witness :
    streamStepTs "x" (Rec.str "ab\r") = some ("x", []) ∧
    streamStepNoTs "x" (Rec.str "ab\r") = ("x", []) :=
  c10_cr_fragment_discarded "x" "ab\r" (by decide) (by decide)

/-- Claim C6 (confirmed).  Nine or more container arguments make the program
print the usage line and a descriptive error and exit with code 1, with no
connection opened, no stream started and no output line produced; one to
eight container arguments pass the maximum_length(8) validation. -/
theorem c6_arg_limit (env : Env) (ids : List String) (timestamps static : Bool)
    (rng : Nat → Nat) (fuel : Nat) (h9 : 9 ≤ ids.length) :
    dockMain env ids timestamps static rng fuel =
      .exited 1 { opened := 0, closed := 0, streams := 0, outLines := [],
                  errs := [usageMsg, "docklog.py: error: " ++ tooManyMsg ids.length] } ∧
    ∀ ids2 : List String, 1 ≤ ids2.length → ids2.length ≤ 8 →
      maximum_length 8 ids2 = .ok ids2 := by
  constructor
  · have hne : ids.isEmpty = false := by
      cases ids with
      | nil => simp at h9
      | cons a as => simp
    have hlen : ¬ (ids.length ≤ 8) := by omega
    simp [dockMain, hne, maximum_length, hlen]
  · intro ids2 h1 h2
    simp [maximum_length, h2]

/-- Witness for c6_arg_limit on a nine-identifier argument list. -/
theorem c6_arg_limit_witness :
    dockMain ⟨true, fun c => some c, fun _ => ""⟩
        ["a", "b", "c", "d", "e", "f", "g", "h", "i"] false false (fun _ => 0) 1 =
      .exited 1 { opened := 0, closed := 0, streams := 0, outLines := [],
                  errs := [usageMsg, "docklog.py: error: " ++ tooManyMsg 9] } ∧
    ∀ ids2 : List String, 1 ≤ ids2.length → ids2.length ≤ 8 →
      maximum_length 8 ids2 = .ok ids2 :=
  c6_arg_limit ⟨true, fun c => some c, fun _ => ""⟩
    ["a", "b", "c", "d", "e", "f", "g", "h", "i"] false false (fun _ => 0) 1 (by decide)

/-- Claim C7 (counterexample).  The claim says the bright-intensity pool has
4 codes; randrange(91,96) on line 156 draws from 5 codes, 91 through 95, and
each of the five is reachable as the sixth allocation of a run. -/
theorem c7_counterexample :
    allocAll (fun j => if j < 5 then j % 5 else 0) 1 6 0 [] = some [31, 32, 33, 34, 35, 91] ∧
    allocAll (fun j => if j < 5 then j % 5 else 1) 1 6 0 [] = some [31, 32, 33, 34, 35, 92] ∧
    allocAll (fun j => if j < 5 then j % 5 else 2) 1 6 0 [] = some [31, 32, 33, 34, 35, 93] ∧
    allocAll (fun j => if j < 5 then j % 5 else 3) 1 6 0 [] = some [31, 32, 33, 34, 35, 94] ∧
    allocAll (fun j => if j < 5 then j % 5 else 4) 1 6 0 [] = some [31, 32, 33, 34, 35, 95] ∧
    brightPool = {91, 92, 93, 94, 95} ∧ brightPool.card = 5 ∧ brightPool.card ≠ 4 := by
  refine ⟨by decide, by decide, by decide, by decide, by decide, by decide, by decide, by decide⟩

/-- Every accepted draw of the rejection loop is fresh and comes from the
range that matches the current usedcolors length. -/
lemma allocLoop_sound : ∀ (fuel : Nat) (rng : Nat → Nat) (i : Nat) (used : List Nat) (c i1 : Nat),
    allocLoop fuel rng i used = some (c, i1) →
    c ∉ used ∧ c ∈ activePool used.length := by
  intro fuel
  induction fuel with
  | zero => intro rng i used c i1 h; simp [allocLoop] at h
  | succ f ih =>
    intro rng i used c i1 h
    rw [allocLoop] at h
    by_cases hmem : drawColor used (rng i) ∈ used
    · rw [if_pos hmem] at h
      exact ih rng (i + 1) used c i1 h
    · rw [if_neg hmem] at h
      obtain ⟨rfl, rfl⟩ : c = drawColor used (rng i) ∧ i1 = i + 1 := by
        simpa [eq_comm] using h
      refine ⟨hmem, ?_⟩
      unfold drawColor activePool brightPool normalPool
      by_cases h5 : 5 ≤ used.length <;>
        simp only [h5, if_pos, if_neg, if_true, if_false, Finset.mem_Ico] <;>
        omega

/-- Soundness of the whole allocation pass: lengths add up, all tokens are
pairwise distinct, and the pool invariant holds for the final usedcolors. -/
lemma allocAll_sound : ∀ (n : Nat) (rng : Nat → Nat) (fuel i : Nat) (used toks : List Nat),
    allocAll rng fuel n i used = some toks →
    used.Nodup → PoolInvariant used →
    toks.length = used.length + n ∧ toks.Nodup ∧ PoolInvariant toks := by
  intro n
  induction n with
  | zero =>
    intro rng fuel i used toks h hn hp
    obtain rfl : used = toks := by simpa [allocAll] using h
    exact ⟨rfl, hn, hp⟩
  | succ m ih =>
    intro rng fuel i used toks h hn hp
    rw [allocAll] at h
    cases hc : allocLoop fuel rng i used with
    | none => rw [hc] at h; exact absurd h (by simp)
    | some ci =>
      obtain ⟨c, i1⟩ := ci
      rw [hc] at h
      have hs := allocLoop_sound fuel rng i used c i1 hc
      have hn1 : (used ++ [c]).Nodup := by
        rw [List.nodup_append]
        exact ⟨hn, List.nodup_singleton c, by simpa using fun hmem => hs.1 hmem⟩
      have hp1 : PoolInvariant (used ++ [c]) := by
        intro k hk
        rcases lt_or_ge k used.length with hlt | hge
        · rw [List.getD_append _ _ _ _ hlt]
          exact hp k hlt
        · have hke : k = used.length := by
            simp only [List.length_append, List.length_singleton] at hk
            omega
          subst hke
          rw [List.getD_append_right _ _ _ _ hge]
          simpa using hs.2
      have hres := ih rng fuel i1 (used ++ [c]) toks h hn1 hp1
      refine ⟨?_, hres.2.1, hres.2.2⟩
      have := hres.1
      simp only [List.length_append, List.length_singleton] at this
      omega

/-- Claim C7, amended (theorem).  Every token issued by a completed
allocation pass comes from one of two disjoint pools of five codes each
(normal 31-35, bright 91-95), the first five allocations draw from the
normal pool and later ones from the bright pool, and all issued tokens are
pairwise distinct (so any two containers of one run get different tokens). -/
theorem c7_pools (rng : Nat → Nat) (fuel n : Nat) (toks : List Nat)
    (h : allocAll rng fuel n 0 [] = some toks) :
    toks.length = n ∧ toks.Nodup ∧
    (∀ k, k < toks.length → toks.getD k 0 ∈ activePool k) ∧
    (∀ x ∈ normalPool, x ∉ brightPool) ∧ normalPool.card = 5 ∧ brightPool.card = 5 := by
  have hres := allocAll_sound n rng fuel 0 [] toks h List.nodup_nil (by intro k hk; simp at hk)
  exact ⟨by simpa using hres.1, hres.2.1, hres.2.2, by decide, by decide, by decide⟩

/-- Witness for c7_pools: a two-container run. -/
theorem c7_pools_witness :
    ([31, 32] : List Nat).length = 2 ∧ ([31, 32] : List Nat).Nodup ∧
    (∀ k, k < ([31, 32] : List Nat).length → ([31, 32] : List Nat).getD k 0 ∈ activePool k) ∧
    (∀ x ∈ normalPool, x ∉ brightPool) ∧ normalPool.card = 5 ∧ brightPool.card = 5 :=
  c7_pools (fun j => j % 5) 1 2 [31, 32] (by decide)

/-- Under the pool invariant the first five issued tokens are normal codes. -/
lemma poolInvariant_take5 (used : List Nat) (h : PoolInvariant used) :
    ∀ v ∈ used.take 5, v ∈ normalPool := by
  intro v hv
  obtain ⟨i, hi, hiv⟩ := List.mem_iff_getElem.mp hv
  have hi5 : i < 5 := by
    have := hi
    simp only [List.length_take] at this
    omega
  have hilen : i < used.length := by
    have := hi
    simp only [List.length_take] at this
    omega
  have hval : used[i] = v := by
    rw [← hiv, List.getElem_take]
  have hinv := h i hilen
  rw [List.getD_eq_getElem _ _ hilen, hval] at hinv
  simpa [activePool, Nat.not_le.mpr hi5] using hinv

/-- Under the pool invariant the tokens issued after the fifth are bright. -/
lemma poolInvariant_drop5 (used : List Nat) (h : PoolInvariant used) :
    ∀ v ∈ used.drop 5, v ∈ brightPool := by
  intro v hv
  obtain ⟨i, hi, hiv⟩ := List.mem_iff_getElem.mp hv
  have hilen : 5 + i < used.length := by
    have := hi
    simp only [List.length_drop] at this
    omega
  have hval : used[5 + i] = v := by
    rw [← hiv, List.getElem_drop]
  have hinv := h (5 + i) hilen
  rw [List.getD_eq_getElem _ _ hilen, hval] at hinv
  simpa [activePool] using hinv

/-- Claim C8 (confirmed).  With at most 8 containers a run issues at most 8
tokens, so at the time of every draw the active range still holds a code
that is not among the issued tokens (the buffer here has at most 7 entries
when the next draw happens): the rejection loop of lines 154-162 can always
exit, with a single draw of that free code.  The code has no retry budget;
none is needed at these sizes. -/
theorem c8_no_deadlock (used : List Nat) (i : Nat)
    (hinv : PoolInvariant used) (hlen : used.length ≤ 7) :
    ∃ r, r < 5 ∧ drawColor used r ∉ used ∧
      allocLoop 1 (fun _ => r) i used = some (drawColor used r, i + 1) := by
  have hfree : ∃ v ∈ activePool used.length, v ∉ used := by
    by_contra hall
    push_neg at hall
    by_cases h5 : 5 ≤ used.length
    · have hsub : brightPool ⊆ (used.drop 5).toFinset := by
        intro v hv
        have hvu : v ∈ used := hall v (by simpa [activePool, h5] using hv)
        rw [← List.take_append_drop 5 used, List.mem_append] at hvu
        rcases hvu with hvt | hvd
        · have := poolInvariant_take5 used hinv v hvt
          have hb := hv
          simp only [normalPool, brightPool, Finset.mem_Ico] at this hb
          omega
        · exact List.mem_toFinset.mpr hvd
      have h1 : brightPool.card ≤ (used.drop 5).toFinset.card := Finset.card_le_card hsub
      have h2 : (used.drop 5).toFinset.card ≤ (used.drop 5).length := List.toFinset_card_le _
      have h3 : (used.drop 5).length = used.length - 5 := List.length_drop 5 used
      have h4 : brightPool.card = 5 := by decide
      omega
    · have hsub : normalPool ⊆ used.toFinset := by
        intro v hv
        exact List.mem_toFinset.mpr (hall v (by simpa [activePool, h5] using hv))
      have h1 : normalPool.card ≤ used.toFinset.card := Finset.card_le_card hsub
      have h2 : used.toFinset.card ≤ used.length := List.toFinset_card_le used
      have h4 : normalPool.card = 5 := by decide
      omega
  obtain ⟨v, hv, hvn⟩ := hfree
  by_cases h5 : 5 ≤ used.length
  · have hvb : 91 ≤ v ∧ v < 96 := by
      have := hv
      simp only [activePool, h5, if_true, brightPool, Finset.mem_Ico] at this
      exact this
    have hdraw : drawColor used (v - 91) = v := by
      unfold drawColor
      rw [if_pos h5, Nat.mod_eq_of_lt (by omega)]
      omega
    refine ⟨v - 91, by omega, by rw [hdraw]; exact hvn, ?_⟩
    rw [allocLoop, if_neg (by rw [hdraw]; exact hvn)]
  · have hvb : 31 ≤ v ∧ v < 36 := by
      have := hv
      simp only [activePool, h5, if_false, normalPool, Finset.mem_Ico] at this
      exact this
    have hdraw : drawColor used (v - 31) = v := by
      unfold drawColor
      rw [if_neg h5, Nat.mod_eq_of_lt (by omega)]
      omega
    refine ⟨v - 31, by omega, by rw [hdraw]; exact hvn, ?_⟩
    rw [allocLoop, if_neg (by rw [hdraw]; exact hvn)]

/-- Witness for c8_no_deadlock: six tokens already issued. -/
theorem c8_no_deadlock_witness :
    ∃ r, r < 5 ∧ drawColor [31, 32, 33, 34, 35, 91] r ∉ [31, 32, 33, 34, 35, 91] ∧
      allocLoop 1 (fun _ => r) 0 [31, 32, 33, 34, 35, 91] =
        some (drawColor [31, 32, 33, 34, 35, 91] r, 0 + 1) :=
  c8_no_deadlock [31, 32, 33, 34, 35, 91] 0 (by unfold PoolInvariant; decide) (by decide)

/-- When some requested identifier cannot be resolved (or the daemon is not
reachable), the resolution loop of lines 131-148 reports an error; every
client it opened it also closed (each iteration closes its own client, the
failing iteration included). -/
lemma resolveLoop_fail (env : Env) :
    ∀ (ids : List String) (big op cl : Nat),
    (∃ cid ∈ ids, env.daemonOk = false ∨ env.resolve cid = none) →
    ∃ msg op2 cl2, resolveLoop env ids big op cl = .error (msg, op2, cl2) ∧
      op2 + cl = cl2 + op ∧ (msg = errConnect ∨ msg = errNotFound) := by
  intro ids
  induction ids with
  | nil => intro big op cl h; simp at h
  | cons cid rest ih =>
    intro big op cl h
    by_cases hd : env.daemonOk = true
    · cases hr : env.resolve cid with
      | none =>
        exact ⟨errNotFound, op + 1, cl + 1, by simp [resolveLoop, hd, hr], by omega, Or.inr rfl⟩
      | some nm =>
        have h2 : ∃ c ∈ rest, env.daemonOk = false ∨ env.resolve c = none := by
          obtain ⟨c, hc, hfail⟩ := h
          rcases List.mem_cons.mp hc with rfl | hcr
          · rcases hfail with hf | hf
            · rw [hd] at hf; exact absurd hf (by simp)
            · rw [hr] at hf; exact absurd hf (by simp)
          · exact ⟨c, hcr, hfail⟩
        obtain ⟨msg, op2, cl2, heq, hcount, hmsg⟩ :=
          ih (if nm.length > big then nm.length else big) (op + 1) (cl + 1) h2
        refine ⟨msg, op2, cl2, ?_, by omega, hmsg⟩
        simpa [resolveLoop, hd, hr] using heq
    · refine ⟨errConnect, op, cl, ?_, by omega, Or.inl rfl⟩
      simp only [resolveLoop]
      rw [if_neg hd]

/-- Claim C9 (confirmed).  When resolving any requested identifier fails
(container not found, or daemon unreachable), the run aborts during the
resolution loop: a descriptive error is reported, every opened client
connection has been closed, no stream_log worker is started, no log line is
produced, and the process exits with status 1. -/
theorem c9_fail_fast (env : Env) (ids : List String) (timestamps static : Bool)
    (rng : Nat → Nat) (fuel : Nat)
    (hlen : ids.length ≤ 8)
    (hfail : ∃ cid ∈ ids, env.daemonOk = false ∨ env.resolve cid = none) :
    ∃ msg op, dockMain env ids timestamps static rng fuel =
        .exited 1 { opened := op, closed := op, streams := 0, outLines := [], errs := [msg] } ∧
      msg ≠ "" := by
  have hne : ids.isEmpty = false := by
    obtain ⟨cid, hcid, _⟩ := hfail
    cases ids with
    | nil => simp at hcid
    | cons a as => simp
  obtain ⟨msg, op2, cl2, heq, hcount, hmsg⟩ := resolveLoop_fail env ids 0 0 0 hfail
  have hoc : cl2 = op2 := by omega
  subst hoc
  refine ⟨msg, cl2, ?_, ?_⟩
  · simp [dockMain, hne, maximum_length, hlen, heq]
  · rcases hmsg with rfl | rfl <;> decide

/-- Witness for c9_fail_fast: one identifier that does not resolve. -/
theorem c9_fail_fast_witness :
    ∃ msg op, dockMain ⟨true, fun _ => none, fun _ => ""⟩ ["a"] false false (fun _ => 0) 1 =
        .exited 1 { opened := op, closed := op, streams := 0, outLines := [], errs := [msg] } ∧
      msg ≠ "" :=
  c9_fail_fast ⟨true, fun _ => none, fun _ => ""⟩ ["a"] false false (fun _ => 0) 1
    (by decide) ⟨"a", by simp, Or.inr rfl⟩

/-- Skipping one whitespace character does not change the word list. -/
lemma pyWords_cons_space (c : Char) (l : List Char) (hs : pyIsSpace c = true) :
    pyWords (c :: l) = pyWords l := by
  cases l with
  | nil => simp [pyWords, hs]
  | cons d cs => simp [pyWords, hs]

/-- Leading spaces do not change the word list. -/
lemma pyWords_replicate_space (n : Nat) (l : List Char) :
    pyWords (List.replicate n ' ' ++ l) = pyWords l := by
  induction n with
  | zero => simp
  | succ k ih =>
    rw [List.replicate_succ, List.cons_append, pyWords_cons_space _ _ (by decide)]
    exact ih

/-- A nonempty whitespace-free prefix followed by end of input or a
whitespace character is the first word. -/
lemma pyWords_word_append (w l : List Char) (hw : w ≠ [])
    (hns : ∀ c ∈ w, pyIsSpace c = false)
    (hl : l = [] ∨ ∃ d ds, l = d :: ds ∧ pyIsSpace d = true) :
    pyWords (w ++ l) = w :: pyWords l := by
  induction w with
  | nil => exact absurd rfl hw
  | cons a as ih =>
    have ha : pyIsSpace a = false := hns a (List.mem_cons_self a as)
    cases as with
    | nil =>
      rcases hl with rfl | ⟨d, ds, rfl, hd⟩
      · simp [pyWords, ha]
      · simp [pyWords, ha, hd]
    | cons b bs =>
      have hb : pyIsSpace b = false := hns b (by simp)
      have ihh : pyWords ((b :: bs) ++ l) = (b :: bs) :: pyWords l :=
        ih (by simp) fun c hc => hns c (List.mem_cons_of_mem a hc)
      simp only [List.cons_append] at ihh ⊢
      simp only [pyWords, ha, hb, Bool.false_eq_true, if_false]
      rw [ihh]

/-- Data decomposition of a timestamped row. -/
lemma rowTs_data (big : Nat) (name : String) (code : Nat) (time body : String) :
    (rowTs big name code time body).data =
      (colorStr code).data ++ name.data ++ styleReset.data ++
        List.replicate (tabwidthTs big name).toNat ' ' ++ time.data ++
        "  |  ".data ++ body.data := rfl

/-- Data decomposition of a row without timestamps. -/
lemma rowNoTs_data (big : Nat) (name : String) (code : Nat) (body : String) :
    (rowNoTs big name code body).data =
      (colorStr code).data ++ name.data ++ styleReset.data ++
        List.replicate (tabwidthNoTs big name).toNat ' ' ++
        "|  ".data ++ body.data := rfl

/-- Character facts about the painted-name prefix for real color codes:
nine characters, none of them whitespace or a bar. -/
lemma colorStr_facts (code : Nat) (h : code ∈ poolCodes) :
    (colorStr code).data.length = 9 ∧
    (∀ c ∈ (colorStr code).data, pyIsSpace c = false) ∧
    (∀ c ∈ (colorStr code).data, (c != '|') = true) := by
  simp only [poolCodes] at h
  fin_cases h <;> exact ⟨by decide, by decide, by decide⟩

/-- takeWhile over a prefix of satisfying characters. -/
lemma takeWhile_append_sat {p : Char → Bool} :
    ∀ (l1 l2 : List Char), (∀ a ∈ l1, p a = true) →
      (l1 ++ l2).takeWhile p = l1 ++ l2.takeWhile p := by
  intro l1
  induction l1 with
  | nil => intro l2 h; simp
  | cons a as ih =>
    intro l2 h
    have ha : p a = true := h a (by simp)
    simp only [List.cons_append, List.takeWhile_cons, ha, if_true]
    rw [ih l2 fun x hx => h x (by simp [hx])]

/-- takeWhile stops at a failing head. -/
lemma takeWhile_cons_false {p : Char → Bool} (a : Char) (l : List Char) (h : p a = false) :
    (a :: l).takeWhile p = [] := by
  simp [List.takeWhile_cons, h]

/-- takeWhile keeps a satisfying head. -/
lemma takeWhile_cons_true {p : Char → Bool} (a : Char) (l : List Char) (h : p a = true) :
    (a :: l).takeWhile p = a :: l.takeWhile p := by
  simp [List.takeWhile_cons, h]

/-- Whitespace facts about the reset escape. -/
lemma styleReset_facts :
    styleReset.data.length = 4 ∧
    (∀ c ∈ styleReset.data, pyIsSpace c = false) ∧
    (∀ c ∈ styleReset.data, (c != '|') = true) :=
  ⟨by decide, by decide, by decide⟩

/-- Splitting a timestamped row into whitespace-separated tokens: the painted
name chunk, then the timestamp, then the bar, then the body tokens.  This is
what makes line.split()[1] of the static sort recover the timestamp. -/
lemma pySplit_rowTs (big : Nat) (name : String) (code : Nat) (time body : String)
    (hc : code ∈ poolCodes)
    (hn : noWs name = true) (hne : name.data ≠ [])
    (ht : noWs time = true) (hte : time.data ≠ [])
    (hbig : name.length ≤ big) :
    pySplit (rowTs big name code time body) =
      String.mk ((colorStr code).data ++ name.data ++ styleReset.data) :: time ::
        "|" :: pySplit body := by
  obtain ⟨hclen, hcns, _⟩ := colorStr_facts code hc
  have hnns : ∀ c ∈ name.data, pyIsSpace c = false := by
    intro c hcm
    simpa using (List.all_eq_true.mp hn) c hcm
  have htns : ∀ c ∈ time.data, pyIsSpace c = false := by
    intro c hcm
    simpa using (List.all_eq_true.mp ht) c hcm
  have hcne : (colorStr code).data ≠ [] := by
    intro h0
    rw [h0] at hclen
    simp at hclen
  have hm : (tabwidthTs big name).toNat = ((tabwidthTs big name).toNat - 1) + 1 := by
    unfold tabwidthTs
    omega
  unfold pySplit
  rw [rowTs_data]
  have h1 := pyWords_word_append ((colorStr code).data ++ name.data ++ styleReset.data)
      (List.replicate (tabwidthTs big name).toNat ' ' ++
        (time.data ++ ("  |  ".data ++ body.data)))
      (by simp [hcne])
      (by
        intro c hcm
        rcases List.mem_append.mp hcm with hcm2 | hcm2
        · rcases List.mem_append.mp hcm2 with hcm3 | hcm3
          · exact hcns c hcm3
          · exact hnns c hcm3
        · exact styleReset_facts.2.1 c hcm2)
      (Or.inr ⟨' ', List.replicate ((tabwidthTs big name).toNat - 1) ' ' ++
          (time.data ++ ("  |  ".data ++ body.data)),
        by conv_lhs => rw [hm, List.replicate_succ]
           rw [List.cons_append], by decide⟩)
  simp only [List.append_assoc] at h1 ⊢
  rw [h1, pyWords_replicate_space]
  have h2 := pyWords_word_append time.data ("  |  ".data ++ body.data) hte htns
      (Or.inr ⟨' ', [' ', '|', ' ', ' '] ++ body.data, rfl, by decide⟩)
  rw [h2]
  have hsplit : "  |  ".data ++ body.data = ' ' :: ' ' :: ('|' :: (' ' :: ' ' :: body.data)) := rfl
  rw [hsplit, pyWords_cons_space _ _ (by decide), pyWords_cons_space _ _ (by decide)]
  have h3 := pyWords_word_append ['|'] (' ' :: ' ' :: body.data) (by simp)
      (by intro c hcm; simp at hcm; rw [hcm]; rfl)
      (Or.inr ⟨' ', ' ' :: body.data, rfl, by decide⟩)
  simp only [List.cons_append, List.nil_append] at h3
  rw [h3, pyWords_cons_space _ _ (by decide), pyWords_cons_space _ _ (by decide)]
  rfl

/-- The padding after the painted name in a timestamped row has exactly
(bignamewidth - len(name)) + 8 spaces. -/
lemma padAfterName_rowTs (big : Nat) (name : String) (code : Nat) (time body : String)
    (hc : code ∈ poolCodes) (hbig : name.length ≤ big)
    (ht : noWs time = true) (hte : time.data ≠ []) :
    padAfterName name.length (rowTs big name code time body) = (big - name.length) + 8 := by
  obtain ⟨hclen, _, _⟩ := colorStr_facts code hc
  have hA : ((colorStr code).data ++ name.data ++ styleReset.data).length = 13 + name.length := by
    simp only [List.length_append, hclen, styleReset_facts.1]
    have : name.data.length = name.length := rfl
    omega
  unfold padAfterName
  rw [rowTs_data]
  rw [show (colorStr code).data ++ name.data ++ styleReset.data ++
        List.replicate (tabwidthTs big name).toNat ' ' ++ time.data ++ "  |  ".data ++ body.data =
      ((colorStr code).data ++ name.data ++ styleReset.data) ++
        (List.replicate (tabwidthTs big name).toNat ' ' ++
          (time.data ++ ("  |  ".data ++ body.data)))
      from by simp [List.append_assoc]]
  rw [← hA, List.drop_left]
  rw [takeWhile_append_sat _ _ fun a ha => by rw [List.eq_of_mem_replicate ha]; rfl]
  obtain ⟨t0, ts, hts⟩ : ∃ t0 ts, time.data = t0 :: ts := by
    cases htd : time.data with
    | nil => exact absurd htd hte
    | cons x xs => exact ⟨x, xs, rfl⟩
  have ht0 : pyIsSpace t0 = false := by
    simpa using (List.all_eq_true.mp ht) t0 (by rw [hts]; simp)
  have ht0s : (t0 == ' ') = false := by
    cases hcc : t0 == ' '
    · rfl
    · have h0 : t0 = ' ' := eq_of_beq hcc
      rw [h0] at ht0
      exact absurd ht0 (by decide)
  rw [hts]
  simp only [List.cons_append]
  rw [takeWhile_cons_false (p := fun c => c == ' ') _ _ ht0s]
  simp only [List.append_nil, List.length_replicate]
  unfold tabwidthTs
  omega

/-- The padding after the painted name in a row without timestamps has
exactly (bignamewidth - len(name)) + 14 spaces. -/
lemma padAfterName_rowNoTs (big : Nat) (name : String) (code : Nat) (body : String)
    (hc : code ∈ poolCodes) (hbig : name.length ≤ big) :
    padAfterName name.length (rowNoTs big name code body) = (big - name.length) + 14 := by
  obtain ⟨hclen, _, _⟩ := colorStr_facts code hc
  have hA : ((colorStr code).data ++ name.data ++ styleReset.data).length = 13 + name.length := by
    simp only [List.length_append, hclen, styleReset_facts.1]
    have : name.data.length = name.length := rfl
    omega
  unfold padAfterName
  rw [rowNoTs_data]
  rw [show (colorStr code).data ++ name.data ++ styleReset.data ++
        List.replicate (tabwidthNoTs big name).toNat ' ' ++ "|  ".data ++ body.data =
      ((colorStr code).data ++ name.data ++ styleReset.data) ++
        (List.replicate (tabwidthNoTs big name).toNat ' ' ++ ("|  ".data ++ body.data))
      from by simp [List.append_assoc]]
  rw [← hA, List.drop_left]
  rw [takeWhile_append_sat _ _ fun a ha => by rw [List.eq_of_mem_replicate ha]; rfl]
  rw [show "|  ".data ++ body.data = '|' :: (' ' :: ' ' :: body.data) from rfl]
  rw [takeWhile_cons_false _ _ (by decide)]
  simp only [List.append_nil, List.length_replicate]
  unfold tabwidthNoTs
  omega

/-- Column of the bar in a timestamped row: independent of the name. -/
lemma barCol_rowTs (big : Nat) (name : String) (code : Nat) (time body : String)
    (hc : code ∈ poolCodes) (hbig : name.length ≤ big)
    (hnb : noBar name = true) (htb : noBar time = true) :
    barCol (rowTs big name code time body) = 23 + big + time.length := by
  obtain ⟨hclen, _, hcnb⟩ := colorStr_facts code hc
  have hnnb : ∀ c ∈ name.data, (c != '|') = true := List.all_eq_true.mp hnb
  have htnb : ∀ c ∈ time.data, (c != '|') = true := List.all_eq_true.mp htb
  unfold barCol
  rw [rowTs_data]
  simp only [List.append_assoc]
  rw [show "  |  ".data ++ body.data = ' ' :: ' ' :: ('|' :: (' ' :: ' ' :: body.data)) from rfl]
  rw [takeWhile_append_sat _ _ hcnb,
      takeWhile_append_sat _ _ hnnb,
      takeWhile_append_sat _ _ styleReset_facts.2.2,
      takeWhile_append_sat _ _ (fun a ha => by rw [List.eq_of_mem_replicate ha]; rfl),
      takeWhile_append_sat _ _ htnb,
      takeWhile_cons_true _ _ (by decide), takeWhile_cons_true _ _ (by decide),
      takeWhile_cons_false _ _ (by decide)]
  simp only [List.length_append, List.length_replicate, List.length_cons, List.length_nil,
    hclen, styleReset_facts.1]
  have hn : name.data.length = name.length := rfl
  have htl : time.data.length = time.length := rfl
  unfold tabwidthTs
  omega

/-- Column of the bar in a row without timestamps: independent of the name. -/
lemma barCol_rowNoTs (big : Nat) (name : String) (code : Nat) (body : String)
    (hc : code ∈ poolCodes) (hbig : name.length ≤ big)
    (hnb : noBar name = true) :
    barCol (rowNoTs big name code body) = 27 + big := by
  obtain ⟨hclen, _, hcnb⟩ := colorStr_facts code hc
  have hnnb : ∀ c ∈ name.data, (c != '|') = true := List.all_eq_true.mp hnb
  unfold barCol
  rw [rowNoTs_data]
  simp only [List.append_assoc]
  rw [show "|  ".data ++ body.data = '|' :: (' ' :: ' ' :: body.data) from rfl]
  rw [takeWhile_append_sat _ _ hcnb,
      takeWhile_append_sat _ _ hnnb,
      takeWhile_append_sat _ _ styleReset_facts.2.2,
      takeWhile_append_sat _ _ (fun a ha => by rw [List.eq_of_mem_replicate ha]; rfl),
      takeWhile_cons_false _ _ (by decide)]
  simp only [List.length_append, List.length_replicate, List.length_nil,
    hclen, styleReset_facts.1]
  have hn : name.data.length = name.length := rfl
  unfold tabwidthNoTs
  omega

/-- Claim C4 (confirmed).  Each display row places exactly
(bignamewidth - len(name)) + K spaces after the painted container name,
K = 8 with timestamps and K = 14 without, and consequently the bar
separator of any two rows of the same run and mode lands in the same
column.  Hypotheses reflect a real session: color codes from the allocator
pools, names no longer than bignamewidth and free of whitespace and bars,
timestamp tokens nonempty, whitespace- and bar-free, of equal length. -/
theorem c4_alignment (big : Nat) (n1 n2 t1 t2 b1 b2 : String) (c1 c2 : Nat)
    (hc1 : c1 ∈ poolCodes) (hc2 : c2 ∈ poolCodes)
    (h1 : n1.length ≤ big) (h2 : n2.length ≤ big)
    (hb1 : noBar n1 = true) (hb2 : noBar n2 = true)
    (ht1 : noWs t1 = true) (hte1 : t1.data ≠ []) (htb1 : noBar t1 = true)
    (ht2 : noWs t2 = true) (hte2 : t2.data ≠ []) (htb2 : noBar t2 = true)
    (hteq : t1.length = t2.length) :
    padAfterName n1.length (rowTs big n1 c1 t1 b1) = (big - n1.length) + 8 ∧
    padAfterName n1.length (rowNoTs big n1 c1 b1) = (big - n1.length) + 14 ∧
    padAfterName n2.length (rowNoTs big n2 c2 b2) = (big - n2.length) + 14 ∧
    barCol (rowTs big n1 c1 t1 b1) = barCol (rowTs big n2 c2 t2 b2) ∧
    barCol (rowNoTs big n1 c1 b1) = barCol (rowNoTs big n2 c2 b2) := by
  refine ⟨padAfterName_rowTs big n1 c1 t1 b1 hc1 h1 ht1 hte1,
          padAfterName_rowNoTs big n1 c1 b1 hc1 h1,
          padAfterName_rowNoTs big n2 c2 b2 hc2 h2, ?_, ?_⟩
  · rw [barCol_rowTs big n1 c1 t1 b1 hc1 h1 hb1 htb1,
        barCol_rowTs big n2 c2 t2 b2 hc2 h2 hb2 htb2, hteq]
  · rw [barCol_rowNoTs big n1 c1 b1 hc1 h1 hb1,
        barCol_rowNoTs big n2 c2 b2 hc2 h2 hb2]

/-- Witness for c4_alignment: the spec example, names db and webserver-1
with bignamewidth 11; without timestamps db is followed by 23 spaces and
webserver-1 by 14. -/
theorem c4_alignment_witness :
    padAfterName ("db" : String).length (rowTs 11 "db" 31 "2024-01-01T00:00:00.00Z" "x") =
      (11 - ("db" : String).length) + 8 ∧
    padAfterName ("db" : String).length (rowNoTs 11 "db" 31 "x") =
      (11 - ("db" : String).length) + 14 ∧
    padAfterName ("webserver-1" : String).length (rowNoTs 11 "webserver-1" 92 "y") =
      (11 - ("webserver-1" : String).length) + 14 ∧
    barCol (rowTs 11 "db" 31 "2024-01-01T00:00:00.00Z" "x") =
      barCol (rowTs 11 "webserver-1" 92 "2025-12-31T23:59:59.99Z" "y") ∧
    barCol (rowNoTs 11 "db" 31 "x") = barCol (rowNoTs 11 "webserver-1" 92 "y") :=
  c4_alignment 11 "db" "webserver-1" "2024-01-01T00:00:00.00Z" "2025-12-31T23:59:59.99Z"
    "x" "y" 31 92 (by decide) (by decide) (by decide) (by decide) (by decide) (by decide)
    (by decide) (by decide) (by decide) (by decide) (by decide) (by decide) (by decide)

/-- Claim C5 (confirmed).  Every formatted row, in both modes and with or
without timestamps, contains the five-character separator "  |  ": with
timestamps it is written literally; without, the two leading spaces come
from the padding, which always has at least 14 spaces since no session name
exceeds bignamewidth. -/
theorem c5_separator (big : Nat) (name time body : String) (code : Nat)
    (h : name.length ≤ big) :
    hasSep (rowTs big name code time body) ∧ hasSep (rowNoTs big name code body) := by
  constructor
  · exact ⟨(colorStr code).data ++ name.data ++ styleReset.data ++
      List.replicate (tabwidthTs big name).toNat ' ' ++ time.data, body.data,
      by rw [rowTs_data]⟩
  · have hm : (tabwidthNoTs big name).toNat = (big - name.length + 12) + 2 := by
      unfold tabwidthNoTs
      omega
    refine ⟨(colorStr code).data ++ name.data ++ styleReset.data ++
      List.replicate (big - name.length + 12) ' ', body.data, ?_⟩
    rw [rowNoTs_data, hm, List.replicate_add]
    simp only [List.append_assoc]
    rfl

/-- Witness for c5_separator with name db and bignamewidth 11. -/
theorem c5_separator_witness :
    hasSep (rowTs 11 "db" 31 "2024-01-01T00:00:00.00Z" "x") ∧ hasSep (rowNoTs 11 "db" 31 "x") :=
  c5_separator 11 "db" "2024-01-01T00:00:00.00Z" "x" 31 (by decide)

/-- Reflexivity of the code-point lexicographic order. -/
lemma lexLe_refl : ∀ a : List Char, lexLe a a = true := by
  intro a
  induction a with
  | nil => rfl
  | cons c cs ih => simp [lexLe, ih]

/-- Totality of the code-point lexicographic order. -/
lemma lexLe_total : ∀ a b : List Char, lexLe a b = true ∨ lexLe b a = true := by
  intro a
  induction a with
  | nil => intro b; left; rfl
  | cons c cs ih =>
    intro b
    cases b with
    | nil => right; rfl
    | cons d ds =>
      rcases Nat.lt_trichotomy c.toNat d.toNat with h | h | h
      · left; simp [lexLe, h]
      · rcases ih ds with h2 | h2
        · left; simp [lexLe, h, Nat.lt_irrefl, h2]
        · right; simp [lexLe, h, Nat.lt_irrefl, h2]
      · right; simp [lexLe, h]

/-- Transitivity of the code-point lexicographic order. -/
lemma lexLe_trans : ∀ a b c : List Char,
    lexLe a b = true → lexLe b c = true → lexLe a c = true := by
  intro a
  induction a with
  | nil => intro b c h1 h2; rfl
  | cons x xs ih =>
    intro b c h1 h2
    cases b with
    | nil => simp [lexLe] at h1
    | cons y ys =>
      cases c with
      | nil => simp [lexLe] at h2
      | cons z zs =>
        have e1 : x.toNat < y.toNat ∨ (x.toNat = y.toNat ∧ lexLe xs ys = true) := by
          by_cases hxy : x.toNat < y.toNat
          · exact Or.inl hxy
          · by_cases hyx : y.toNat < x.toNat
            · simp [lexLe, if_neg hxy, if_pos hyx] at h1
            · exact Or.inr ⟨by omega, by simpa only [lexLe, if_neg hxy, if_neg hyx] using h1⟩
        have e2 : y.toNat < z.toNat ∨ (y.toNat = z.toNat ∧ lexLe ys zs = true) := by
          by_cases hyz : y.toNat < z.toNat
          · exact Or.inl hyz
          · by_cases hzy : z.toNat < y.toNat
            · simp [lexLe, if_neg hyz, if_pos hzy] at h2
            · exact Or.inr ⟨by omega, by simpa only [lexLe, if_neg hyz, if_neg hzy] using h2⟩
        rcases e1 with h1a | ⟨h1a, h1b⟩ <;> rcases e2 with h2a | ⟨h2a, h2b⟩
        · simp only [lexLe, if_pos (show x.toNat < z.toNat by omega)]
        · simp only [lexLe, if_pos (show x.toNat < z.toNat by omega)]
        · simp only [lexLe, if_pos (show x.toNat < z.toNat by omega)]
        · simp only [lexLe, if_neg (show ¬ x.toNat < z.toNat by omega),
            if_neg (show ¬ z.toNat < x.toNat by omega)]
          exact ih ys zs h1b h2b

/-- Totality of the static sort comparison. -/
lemma sortLe_total : ∀ a b : String, sortLe a b ∨ sortLe b a := by
  intro a b
  exact lexLe_total (keyD a).data (keyD b).data

/-- Transitivity of the static sort comparison. -/
lemma sortLe_trans : ∀ a b c : String, sortLe a b → sortLe b c → sortLe a c := by
  intro a b c h1 h2
  exact lexLe_trans (keyD a).data (keyD b).data (keyD c).data h1 h2

/-- Stability of the modelled sort, stated through filters: the sublist of
lines whose key equals any fixed value is unchanged by the sort. -/
lemma insertionSort_filter_stable (l : List String) (p : String → Bool)
    (hp : ∀ a, p a = true → ∀ b, p b = true → sortLe a b) :
    (List.insertionSort sortLe l).filter p = l.filter p := by
  have hsub1 : List.Sublist (l.filter p) l := List.filter_sublist l
  have hpair : (l.filter p).Pairwise sortLe :=
    List.pairwise_of_forall_mem_list fun a ha b hb =>
      hp a (List.of_mem_filter ha) b (List.of_mem_filter hb)
  have hsub2 : List.Sublist (l.filter p) (List.insertionSort sortLe l) :=
    List.sublist_insertionSort hpair hsub1
  have hsub3 : List.Sublist ((l.filter p).filter p) ((List.insertionSort sortLe l).filter p) :=
    hsub2.filter p
  rw [List.filter_eq_self.mpr fun a ha => List.of_mem_filter ha] at hsub3
  have hperm : List.Perm ((List.insertionSort sortLe l).filter p) (l.filter p) :=
    (List.perm_insertionSort sortLe l).filter p
  exact (hsub3.eq_of_length hperm.length_eq.symm).symm

/-- Unpacking the well-formedness of an entry. -/
lemma goodEntry_unpack (big : Nat) (e : TsEntry) (h : goodEntry big e = true) :
    e.code ∈ poolCodes ∧ noWs e.name = true ∧ e.name.data ≠ [] ∧
    e.name.length ≤ big ∧ noWs e.time = true ∧ e.time.data ≠ [] := by
  simp only [goodEntry, Bool.and_eq_true, decide_eq_true_eq, Bool.not_eq_true'] at h
  obtain ⟨⟨⟨⟨⟨h1, h2⟩, h3⟩, h4⟩, h5⟩, h6⟩ := h
  refine ⟨h1, h2, ?_, h4, h5, ?_⟩
  · intro h0; rw [h0] at h3; simp at h3
  · intro h0; rw [h0] at h6; simp at h6

/-- The sort key line.split()[1] of a well-formed collected row is its
timestamp token, and in particular exists. -/
lemma keyD_mkRow (big : Nat) (e : TsEntry) (h : goodEntry big e = true) :
    keyD (mkRow big e) = e.time ∧ (staticSortKey (mkRow big e)).isSome = true := by
  obtain ⟨h1, h2, h3, h4, h5, h6⟩ := goodEntry_unpack big e h
  have hsplit := pySplit_rowTs big e.name e.code e.time e.body h1 h2 h3 h5 h6 h4
  constructor
  · simp [keyD, mkRow, hsplit]
  · simp [staticSortKey, mkRow, hsplit]

/-- Claim C3 (confirmed).  In static mode with timestamps the combined
collected rows are printed as a stable ascending lexicographic sort on the
extracted timestamp token (line.split()[1], which for well-formed rows is
exactly the timestamp), regardless of collection order; without timestamps
they are printed exactly in collection order.  Stability is stated as: the
subsequence of rows carrying any fixed timestamp is unchanged. -/
theorem c3_static_sort (big : Nat) (entries : List TsEntry)
    (hgood : ∀ e ∈ entries, goodEntry big e = true) :
    ∃ out, staticPrint true (entries.map (mkRow big)) = some out ∧
      List.Perm out (entries.map (mkRow big)) ∧
      out.Pairwise sortLe ∧
      (∀ t : String, out.filter (fun l => keyD l == t) =
        (entries.map (mkRow big)).filter (fun l => keyD l == t)) ∧
      (∀ e ∈ entries, keyD (mkRow big e) = e.time) ∧
      staticPrint false (entries.map (mkRow big)) = some (entries.map (mkRow big)) := by
  have hall : (entries.map (mkRow big)).all (fun l => (staticSortKey l).isSome) = true := by
    rw [List.all_eq_true]
    intro l hl
    obtain ⟨e, he, rfl⟩ := List.mem_map.mp hl
    exact (keyD_mkRow big e (hgood e he)).2
  refine ⟨List.insertionSort sortLe (entries.map (mkRow big)), ?_, ?_, ?_, ?_, ?_, ?_⟩
  · simp [staticPrint, hall]
  · exact List.perm_insertionSort sortLe (entries.map (mkRow big))
  · exact @List.sorted_insertionSort String sortLe instDecSortLe ⟨sortLe_total⟩ ⟨sortLe_trans⟩
      (entries.map (mkRow big))
  · intro t
    refine insertionSort_filter_stable (entries.map (mkRow big)) (fun l => keyD l == t) ?_
    intro a ha b hb
    have ha2 : keyD a = t := eq_of_beq ha
    have hb2 : keyD b = t := eq_of_beq hb
    unfold sortLe pyLe
    rw [ha2, hb2]
    exact lexLe_refl t.data
  · exact fun e he => (keyD_mkRow big e (hgood e he)).1
  · simp [staticPrint]

/-- Witness for c3_static_sort: three containers collected with timestamps
T3, T1, T2; the spec example order. -/
theorem c3_static_sort_witness :
    ∃ out, staticPrint true ([⟨"db", 31, "T3", "x"⟩, ⟨"web", 32, "T1", "y"⟩,
        ⟨"api", 33, "T2", "z"⟩].map (mkRow 11)) = some out ∧
      List.Perm out ([⟨"db", 31, "T3", "x"⟩, ⟨"web", 32, "T1", "y"⟩,
        ⟨"api", 33, "T2", "z"⟩].map (mkRow 11)) ∧
      out.Pairwise sortLe ∧
      (∀ t : String, out.filter (fun l => keyD l == t) =
        ([⟨"db", 31, "T3", "x"⟩, ⟨"web", 32, "T1", "y"⟩,
          ⟨"api", 33, "T2", "z"⟩].map (mkRow 11)).filter (fun l => keyD l == t)) ∧
      (∀ e ∈ [⟨"db", 31, "T3", "x"⟩, ⟨"web", 32, "T1", "y"⟩, ⟨"api", 33, "T2", "z"⟩],
        keyD (mkRow 11 e) = e.time) ∧
      staticPrint false ([⟨"db", 31, "T3", "x"⟩, ⟨"web", 32, "T1", "y"⟩,
        ⟨"api", 33, "T2", "z"⟩].map (mkRow 11)) =
        some ([⟨"db", 31, "T3", "x"⟩, ⟨"web", 32, "T1", "y"⟩,
          ⟨"api", 33, "T2", "z"⟩].map (mkRow 11)) :=
  c3_static_sort 11 [⟨"db", 31, "T3", "x"⟩, ⟨"web", 32, "T1", "y"⟩, ⟨"api", 33, "T2", "z"⟩]
    (by decide)

end Docklog
